import Mathlib

/-!
Verification of the chicken_feed collector server (src/server/backend/server.js)
against its natural-language specification.

The embedding models the server-side state (the in-memory deviceConfigs Map and
the three database tables from src/server/database/init.sql), the two POST
handlers with their Joi validation schemas, the read-only GET handlers, and the
per-minute missed-feeding detector installed with cron.schedule.

Timestamps are seconds since an arbitrary epoch (Nat).  The host timezone is a
fixed offset in minutes (Int): the JavaScript Date.getHours/getMinutes calls read the
host-local clock, modelled as (utcSeconds + 60 * offset) mod 86400.  Database
reachability is a Bool ("dbOk"): a failed pool.query throws, modelled with
Except.  The external ISO-8601 timestamp parser used by Joi.date().iso() is an
abstract parameter (parseIso : String -> Option Nat).
-/

namespace ChickenFeed

/-- A device configuration as held in the deviceConfigs Map and the
device_configs table: feeding_times (strings validated against HH:MM) and
duration_minutes (a JavaScript number, modelled as Rat). -/
structure Config where
  feeding_times : List String
  duration_minutes : Rat
deriving DecidableEq, Repr

/-- A row of the feeding_logs table. -/
structure FeedingLog where
  device_id : String
  action : String
  timestamp : Nat
  details : String
deriving DecidableEq, Repr

/-- A row of the missed_feedings table (id column omitted; UNIQUE(device_id,
scheduled_time) is enforced by the ON CONFLICT clause of the insert). -/
structure MissedRow where
  device_id : String
  scheduled_time : Nat
  detected_at : Nat
  resolved : Bool
deriving DecidableEq, Repr

/-- State of the collector: the in-memory deviceConfigs Map plus the three
tables device_configs, feeding_logs and missed_feedings. -/
structure ServerState where
  deviceConfigs : List (String × Config)
  dbConfigs : List (String × Config)
  feedingLogs : List FeedingLog
  missedFeedings : List MissedRow
deriving DecidableEq, Repr

/-- Map.set semantics of the JavaScript Map and of the ON CONFLICT DO UPDATE
upsert on device_configs: replace the entry for the key, else append it. -/
def mapSet (m : List (String × Config)) (k : String) (v : Config) :
    List (String × Config) :=
  match m with
  | [] => [(k, v)]
  | (k', v') :: rest => if k' = k then (k, v) :: rest else (k', v') :: mapSet rest k v

/-- The JavaScript padStart(2, the zero digit) on a nonnegative integer. -/
def pad2 (n : Nat) : String := if n < 10 then "0" ++ toString n else toString n

/-- currentTime from the cron callback: now.getHours() and now.getMinutes()
read the host-local clock, i.e. UTC seconds shifted by the host offset. -/
def currentTimeString (now : Nat) (tz : Int) : String :=
  let localMin : Nat := (((now : Int) + tz * 60).emod 86400).toNat / 60
  pad2 (localMin / 60) ++ ":" ++ pad2 (localMin % 60)

/-- The five action values accepted by the Joi.string().valid call of feedingLogSchema. -/
def actionValues : List String := ["open", "close", "error", "startup", "shutdown"]

/-- Request body of POST /api/feeding/log.  Absent fields are none; details is
an opaque JSON object payload. -/
structure FeedingLogBody where
  device_id : Option String
  action : Option String
  timestamp : Option String
  details : Option String
deriving DecidableEq, Repr

/-- feedingLogSchema.validate followed by destructuring: device_id required,
action required and among actionValues, timestamp required and ISO-8601
(parsed by the abstract parseIso); on success the feeding_logs row that the
INSERT stores (details defaults to the empty object). -/
def validateFeedingLog (parseIso : String → Option Nat) (b : FeedingLogBody) :
    Option FeedingLog :=
  match b.device_id, b.action, b.timestamp with
  | some d, some a, some ts =>
    if actionValues.contains a then
      match parseIso ts with
      | some t => some ⟨d, a, t, b.details.getD ""⟩
      | none => none
    else none
  | _, _, _ => none

/-- Description, in the words of the spec, of a schema violation for POST /api/feeding/log:
missing device_id, action outside the five allowed values, or a missing or
non-ISO-8601 timestamp. -/
def feedingSchemaViolation (parseIso : String → Option Nat) (b : FeedingLogBody) : Bool :=
  b.device_id.isNone ||
  (match b.action with
   | none => true
   | some a => !(actionValues.contains a)) ||
  (match b.timestamp with
   | none => true
   | some ts => (parseIso ts).isNone)

/-- The POST /api/feeding/log handler: 400 on validation error; otherwise one
INSERT INTO feeding_logs, answering 200, or 500 if the pool.query throws. -/
def postFeedingLog (parseIso : String → Option Nat) (dbOk : Bool)
    (b : FeedingLogBody) (st : ServerState) : ServerState × Nat :=
  match validateFeedingLog parseIso b with
  | none => (st, 400)
  | some row =>
    if dbOk then ({ st with feedingLogs := st.feedingLogs ++ [row] }, 200)
    else (st, 500)

/-- The Joi pattern for feeding times: ([01]\d|2[0-3]):([0-5]\d) anchored. -/
def hhmmOk (s : String) : Bool :=
  match s.data with
  | [h1, h2, c, m1, m2] =>
    (((h1 == '0' || h1 == '1') && h2.isDigit) ||
      (h1 == '2' && (decide ('0' ≤ h2) && decide (h2 ≤ '3')))) &&
    (c == ':') && (decide ('0' ≤ m1) && decide (m1 ≤ '5')) && m2.isDigit
  | _ => false

/-- Request body of POST /api/device/config. -/
structure ConfigBody where
  device_id : Option String
  feeding_times : Option (List String)
  duration_minutes : Option Rat
deriving DecidableEq, Repr

/-- configUpdateSchema.validate followed by destructuring: device_id required,
feeding_times a required array of HH:MM strings, duration_minutes a required
number with min 1 and max 120. -/
def validateConfig (b : ConfigBody) : Option (String × Config) :=
  match b.device_id, b.feeding_times, b.duration_minutes with
  | some d, some ts, some dur =>
    if ts.all hhmmOk && (decide (1 ≤ dur) && decide (dur ≤ 120)) then
      some (d, ⟨ts, dur⟩)
    else none
  | _, _, _ => none

/-- Description, in the words of the spec, of a schema violation for POST /api/device/config:
missing device_id, a missing feeding_times array or one containing a string
that is not HH:MM, or a missing duration_minutes or one outside 1..120. -/
def configSchemaViolation (b : ConfigBody) : Bool :=
  b.device_id.isNone ||
  (match b.feeding_times with
   | none => true
   | some ts => !(ts.all hhmmOk)) ||
  (match b.duration_minutes with
   | none => true
   | some dur => !(decide (1 ≤ dur) && decide (dur ≤ 120)))

/-- The POST /api/device/config handler: 400 on validation error; otherwise
deviceConfigs.set happens first, then the upsert INTO device_configs, and the
response is 200 — or 500 when that pool.query throws (note the in-memory Map
was already updated at that point, as in the source). -/
def postDeviceConfig (dbOk : Bool) (b : ConfigBody) (st : ServerState) :
    ServerState × Nat :=
  match validateConfig b with
  | none => (st, 400)
  | some (d, cfg) =>
    let st1 := { st with deviceConfigs := mapSet st.deviceConfigs d cfg }
    if dbOk then ({ st1 with dbConfigs := mapSet st.dbConfigs d cfg }, 200)
    else (st1, 500)

/-- The count query of the detector: SELECT COUNT(*) FROM feeding_logs WHERE
device_id = the device AND action is open AND timestamp >= NOW() - INTERVAL of
5 minutes.  (Lower bound only — the source puts no upper bound on timestamp.) -/
def openCount (logs : List FeedingLog) (d : String) (now : Nat) : Nat :=
  (logs.filter (fun r =>
    r.device_id == d && r.action == "open" && decide (now ≤ r.timestamp + 300))).length

/-- Whether a row with key (device_id, scheduled_time) is already present —
the conflict test of the UNIQUE(device_id, scheduled_time) constraint. -/
def hasMissedKey (rows : List MissedRow) (d : String) (t : Nat) : Bool :=
  rows.any (fun r => r.device_id == d && r.scheduled_time == t)

/-- INSERT INTO missed_feedings ... ON CONFLICT (device_id, scheduled_time) DO
NOTHING, with resolved defaulting to false. -/
def insertMissed (rows : List MissedRow) (d : String) (sched : Nat) (det : Nat) :
    List MissedRow :=
  if hasMissedKey rows d sched then rows else rows ++ [⟨d, sched, det, false⟩]

/-- The body of the cron loop for one deviceConfigs entry: if feeding_times
includes currentTime, run the count query (throws when the store is down) and,
when the count is zero, the ON CONFLICT insert of (deviceId, now, NOW()). -/
def checkDevice (dbOk : Bool) (now : Nat) (tz : Int) (logs : List FeedingLog)
    (missed : List MissedRow) (d : String) (c : Config) :
    Except Unit (List MissedRow) :=
  if c.feeding_times.contains (currentTimeString now tz) then
    if dbOk then
      .ok (if openCount logs d now = 0 then insertMissed missed d now now else missed)
    else .error ()
  else .ok missed

/-- The for-loop over deviceConfigs.entries(): a thrown query aborts the loop. -/
def runDevices (dbOk : Bool) (now : Nat) (tz : Int) (logs : List FeedingLog) :
    List (String × Config) → List MissedRow → Except Unit (List MissedRow)
  | [], missed => .ok missed
  | p :: rest, missed =>
    match checkDevice dbOk now tz logs missed p.1 p.2 with
    | .ok m => runDevices dbOk now tz logs rest m
    | .error e => .error e

/-- The same loop in the case where every query succeeds. -/
def runDevicesOk (now : Nat) (tz : Int) (logs : List FeedingLog) :
    List (String × Config) → List MissedRow → List MissedRow
  | [], missed => missed
  | p :: rest, missed =>
    runDevicesOk now tz logs rest
      (if p.2.feeding_times.contains (currentTimeString now tz) then
        (if openCount logs p.1 now = 0 then insertMissed missed p.1 now now else missed)
      else missed)

/-- One tick of cron.schedule with its try/catch: on a thrown error the catch
logs and the state is left as it was (no committed insert, since with the
store unreachable the very first query of the first matching device throws). -/
def cronTick (dbOk : Bool) (now : Nat) (tz : Int) (st : ServerState) : ServerState :=
  match runDevices dbOk now tz st.feedingLogs st.deviceConfigs st.missedFeedings with
  | .ok m => { st with missedFeedings := m }
  | .error _ => st

/-- A single-quote character, as it occurs in the SQL text. -/
def sq : String := String.singleton (Char.ofNat 39)

/-- The INTERVAL literal that the GET /api/stats template literal builds by
splicing the days query parameter into the SQL text. -/
def intervalLit (days : String) : String := "INTERVAL " ++ sq ++ days ++ " days" ++ sq

/-- Text of the stats query before the interpolated INTERVAL literal. -/
def statsPre : String :=
  "SELECT\n        DATE(timestamp) as date,\n        COUNT(CASE WHEN action = " ++
  sq ++ "open" ++ sq ++ " THEN 1 END) as opens,\n        COUNT(CASE WHEN action = " ++
  sq ++ "close" ++ sq ++ " THEN 1 END) as closes,\n        COUNT(CASE WHEN action = " ++
  sq ++ "error" ++ sq ++ " THEN 1 END) as errors\n       FROM feeding_logs\n       WHERE device_id = $1\n       AND timestamp >= NOW() - "

/-- Text of the stats query after the interpolated INTERVAL literal. -/
def statsPost : String :=
  "\n       GROUP BY DATE(timestamp)\n       ORDER BY date DESC"

/-- The first SQL text executed by GET /api/stats: the template literal with
the days request-query value spliced in (not bound as a query parameter). -/
def statsQueryText (days : String) : String := statsPre ++ intervalLit days ++ statsPost

/-- Text of the missed_feedings aggregate query before the INTERVAL literal. -/
def missedPre : String :=
  "SELECT DATE(scheduled_time) as date, COUNT(*) as missed_count\n       FROM missed_feedings\n       WHERE device_id = $1\n       AND scheduled_time >= NOW() - "

/-- Text of the missed_feedings aggregate query after the INTERVAL literal. -/
def missedPost : String := "\n       GROUP BY DATE(scheduled_time)"

/-- The second SQL text executed by GET /api/stats, also splicing days. -/
def missedQueryText (days : String) : String := missedPre ++ intervalLit days ++ missedPost

/-- The operations the collector exposes: the five API routes plus one tick of
the cron-scheduled missed-feeding check.  Each database-writing operation
carries whether the store is reachable while it runs. -/
inductive Op where
  | postLog (dbOk : Bool) (b : FeedingLogBody)
  | postConfig (dbOk : Bool) (b : ConfigBody)
  | getLogs (d : String)
  | getMissed (d : String) (date : String)
  | getStats (d : String) (days : String)
  | health
  | tick (dbOk : Bool) (now : Nat) (tz : Int)

/-- State transition of one operation.  The GET routes and the health check
only SELECT, leaving the state unchanged. -/
def step (parseIso : String → Option Nat) (st : ServerState) (op : Op) : ServerState :=
  match op with
  | .postLog dbOk b => (postFeedingLog parseIso dbOk b st).1
  | .postConfig dbOk b => (postDeviceConfig dbOk b st).1
  | .getLogs _ => st
  | .getMissed _ _ => st
  | .getStats _ _ => st
  | .health => st
  | .tick dbOk now tz => cronTick dbOk now tz st

/-- Run a sequence of operations. -/
def runOps (parseIso : String → Option Nat) (st : ServerState) (ops : List Op) :
    ServerState :=
  ops.foldl (step parseIso) st

/-- State at process start: deviceConfigs is a fresh empty Map; the
device_configs table may hold rows persisted by an earlier process. -/
def initState (dbCfgs : List (String × Config)) : ServerState := ⟨[], dbCfgs, [], []⟩

/-- Whether an operation is a POST /api/device/config whose body passes
configUpdateSchema and names the given device. -/
def isValidConfigPostFor (d : String) : Op → Bool
  | .postConfig _ b =>
    match validateConfig b with
    | some (k, _) => k == d
    | none => false
  | _ => false

/-- Modelled from the spec: an open FeedingEvent for the device inside the
tolerance window from the scheduled instant to that instant plus the grace
period (both in seconds).  This is the window the spec describes; the
query of the detector itself is openCount. -/
def openWithinSpecWindow (logs : List FeedingLog) (d : String) (sched grace : Nat) : Bool :=
  logs.any (fun r =>
    r.device_id == d && r.action == "open" &&
    decide (sched ≤ r.timestamp) && decide (r.timestamp ≤ sched + grace))

/-- Pairwise distinctness of (device_id, scheduled_time) keys: the property
the UNIQUE(device_id, scheduled_time) constraint guarantees of the table. -/
def uniqKeys (m : List MissedRow) : Prop :=
  m.Pairwise (fun r s => ¬(r.device_id = s.device_id ∧ r.scheduled_time = s.scheduled_time))

instance : DecidablePred uniqKeys := fun m =>
  inferInstanceAs (Decidable (m.Pairwise _))

theorem mem_insertMissed_of_mem {r : MissedRow} {m : List MissedRow} {d : String}
    {t det : Nat} (h : r ∈ m) : r ∈ insertMissed m d t det := by
  unfold insertMissed
  split
  · exact h
  · exact List.mem_append_left _ h

theorem mem_of_mem_insertMissed {r : MissedRow} {m : List MissedRow} {d : String}
    {t det : Nat} (h : r ∈ insertMissed m d t det) : r ∈ m ∨ r = ⟨d, t, det, false⟩ := by
  unfold insertMissed at h
  split at h
  · exact Or.inl h
  · rcases List.mem_append.mp h with h' | h'
    · exact Or.inl h'
    · exact Or.inr (List.mem_singleton.mp h')

theorem hasMissedKey_insertMissed_self (m : List MissedRow) (d : String) (t det : Nat) :
    hasMissedKey (insertMissed m d t det) d t = true := by
  unfold insertMissed
  split
  · assumption
  · simp [hasMissedKey, List.any_append]

theorem hasMissedKey_insertMissed_of {m : List MissedRow} {d : String} {t : Nat}
    (d' : String) (t' det : Nat) (h : hasMissedKey m d t = true) :
    hasMissedKey (insertMissed m d' t' det) d t = true := by
  unfold insertMissed
  split
  · exact h
  · simp [hasMissedKey, List.any_append] at h ⊢
    exact Or.inl h

theorem insertMissed_of_key {m : List MissedRow} {d : String} {t : Nat} (det : Nat)
    (h : hasMissedKey m d t = true) : insertMissed m d t det = m := by
  unfold insertMissed
  simp [h]

theorem uniqKeys_insertMissed {m : List MissedRow} (d : String) (t det : Nat)
    (h : uniqKeys m) : uniqKeys (insertMissed m d t det) := by
  unfold insertMissed
  split
  · exact h
  next hk =>
    unfold uniqKeys at h ⊢
    rw [List.pairwise_append]
    refine ⟨h, by simp, ?_⟩
    intro a ha b hb
    rw [List.mem_singleton] at hb
    subst hb
    intro hab
    apply hk
    simp only [hasMissedKey, List.any_eq_true, Bool.and_eq_true, beq_iff_eq]
    exact ⟨a, ha, hab.1, hab.2⟩

theorem runDevicesOk_mem {now : Nat} {tz : Int} {logs : List FeedingLog} :
    ∀ (devs : List (String × Config)) (missed : List MissedRow) (r : MissedRow),
      r ∈ runDevicesOk now tz logs devs missed →
      r ∈ missed ∨
        (∃ c, (r.device_id, c) ∈ devs) ∧ r.scheduled_time = now ∧ r.detected_at = now := by
  intro devs
  induction devs with
  | nil => intro missed r h; exact Or.inl h
  | cons p rest ih =>
    intro missed r h
    rw [runDevicesOk] at h
    rcases ih _ r h with h' | ⟨⟨c, hc⟩, hs, hd⟩
    · split at h'
      · split at h'
        · rcases mem_of_mem_insertMissed h' with h'' | h''
          · exact Or.inl h''
          · subst h''
            exact Or.inr ⟨⟨p.2, List.mem_cons_self _ _⟩, rfl, rfl⟩
        · exact Or.inl h'
      · exact Or.inl h'
    · exact Or.inr ⟨⟨c, List.mem_cons_of_mem _ hc⟩, hs, hd⟩

theorem hasMissedKey_runDevicesOk_of {now : Nat} {tz : Int} {logs : List FeedingLog}
    {d : String} {t : Nat} :
    ∀ (devs : List (String × Config)) (missed : List MissedRow),
      hasMissedKey missed d t = true →
      hasMissedKey (runDevicesOk now tz logs devs missed) d t = true := by
  intro devs
  induction devs with
  | nil => intro missed h; exact h
  | cons p rest ih =>
    intro missed h
    rw [runDevicesOk]
    apply ih
    split
    · split
      · exact hasMissedKey_insertMissed_of _ _ _ h
      · exact h
    · exact h

theorem hasMissedKey_runDevicesOk_self {now : Nat} {tz : Int} {logs : List FeedingLog} :
    ∀ (devs : List (String × Config)) (missed : List MissedRow) (d : String) (c : Config),
      (d, c) ∈ devs →
      c.feeding_times.contains (currentTimeString now tz) = true →
      openCount logs d now = 0 →
      hasMissedKey (runDevicesOk now tz logs devs missed) d now = true := by
  intro devs
  induction devs with
  | nil => intro _ _ _ h; exact absurd h (List.not_mem_nil _)
  | cons p rest ih =>
    intro missed d c hmem hcont hcnt
    rw [runDevicesOk]
    rcases List.mem_cons.mp hmem with h | h
    · have h1 : p.1 = d := by rw [← h]
      have h2 : p.2 = c := by rw [← h]
      apply hasMissedKey_runDevicesOk_of
      rw [h1, h2, hcont]
      simp only [if_true]
      rw [if_pos hcnt]
      exact hasMissedKey_insertMissed_self _ _ _ _
    · exact ih _ d c h hcont hcnt

theorem runDevicesOk_noop {now : Nat} {tz : Int} {logs : List FeedingLog} :
    ∀ (devs : List (String × Config)) (missed : List MissedRow),
      (∀ d c, (d, c) ∈ devs →
        c.feeding_times.contains (currentTimeString now tz) = true →
        openCount logs d now = 0 → hasMissedKey missed d now = true) →
      runDevicesOk now tz logs devs missed = missed := by
  intro devs
  induction devs with
  | nil => intro _ _; rfl
  | cons p rest ih =>
    intro missed h
    rw [runDevicesOk]
    have hstep :
        (if p.2.feeding_times.contains (currentTimeString now tz) then
          (if openCount logs p.1 now = 0 then insertMissed missed p.1 now now else missed)
        else missed) = missed := by
      split
      · split
        next hcont hcnt =>
          exact insertMissed_of_key _ (h p.1 p.2 (List.mem_cons_self _ _) hcont hcnt)
        · rfl
      · rfl
    rw [hstep]
    exact ih _ (fun d c hm => h d c (List.mem_cons_of_mem _ hm))

theorem runDevicesOk_idem (now : Nat) (tz : Int) (logs : List FeedingLog)
    (devs : List (String × Config)) (missed : List MissedRow) :
    runDevicesOk now tz logs devs (runDevicesOk now tz logs devs missed) =
      runDevicesOk now tz logs devs missed :=
  runDevicesOk_noop devs _ (fun d c hm hcont hcnt =>
    hasMissedKey_runDevicesOk_self devs missed d c hm hcont hcnt)

theorem uniqKeys_runDevicesOk {now : Nat} {tz : Int} {logs : List FeedingLog} :
    ∀ (devs : List (String × Config)) (missed : List MissedRow),
      uniqKeys missed → uniqKeys (runDevicesOk now tz logs devs missed) := by
  intro devs
  induction devs with
  | nil => intro _ h; exact h
  | cons p rest ih =>
    intro missed h
    rw [runDevicesOk]
    apply ih
    split
    · split
      · exact uniqKeys_insertMissed _ _ _ h
      · exact h
    · exact h

theorem checkDevice_true_eq (now : Nat) (tz : Int) (logs : List FeedingLog)
    (missed : List MissedRow) (d : String) (c : Config) :
    checkDevice true now tz logs missed d c =
      .ok (if c.feeding_times.contains (currentTimeString now tz) then
        (if openCount logs d now = 0 then insertMissed missed d now now else missed)
      else missed) := by
  cases hc : c.feeding_times.contains (currentTimeString now tz) <;>
    · unfold checkDevice
      rw [hc]
      simp

theorem checkDevice_false_eq (now : Nat) (tz : Int) (logs : List FeedingLog)
    (missed : List MissedRow) (d : String) (c : Config) :
    checkDevice false now tz logs missed d c =
      (if c.feeding_times.contains (currentTimeString now tz) then .error ()
       else .ok missed) := by
  cases hc : c.feeding_times.contains (currentTimeString now tz) <;>
    · unfold checkDevice
      rw [hc]
      simp

theorem runDevices_true (now : Nat) (tz : Int) (logs : List FeedingLog) :
    ∀ (devs : List (String × Config)) (missed : List MissedRow),
      runDevices true now tz logs devs missed =
        .ok (runDevicesOk now tz logs devs missed) := by
  intro devs
  induction devs with
  | nil => intro missed; rfl
  | cons p rest ih =>
    intro missed
    rw [runDevices, runDevicesOk, checkDevice_true_eq]
    exact ih _

theorem runDevices_false (now : Nat) (tz : Int) (logs : List FeedingLog) :
    ∀ (devs : List (String × Config)) (missed : List MissedRow),
      runDevices false now tz logs devs missed = .error () ∨
        runDevices false now tz logs devs missed = .ok missed := by
  intro devs
  induction devs with
  | nil => intro missed; exact Or.inr rfl
  | cons p rest ih =>
    intro missed
    rw [runDevices, checkDevice_false_eq]
    by_cases hc : p.2.feeding_times.contains (currentTimeString now tz) = true
    · rw [if_pos hc]
      exact Or.inl rfl
    · rw [if_neg hc]
      exact ih _

theorem cronTick_false (now : Nat) (tz : Int) (st : ServerState) :
    cronTick false now tz st = st := by
  unfold cronTick
  rcases runDevices_false now tz st.feedingLogs st.deviceConfigs st.missedFeedings
    with h | h <;> rw [h]

theorem cronTick_true (now : Nat) (tz : Int) (st : ServerState) :
    cronTick true now tz st =
      { st with missedFeedings :=
          runDevicesOk now tz st.feedingLogs st.deviceConfigs st.missedFeedings } := by
  unfold cronTick
  rw [runDevices_true]

theorem cronTick_feedingLogs (dbOk : Bool) (now : Nat) (tz : Int) (st : ServerState) :
    (cronTick dbOk now tz st).feedingLogs = st.feedingLogs := by
  unfold cronTick
  split <;> rfl

theorem cronTick_deviceConfigs (dbOk : Bool) (now : Nat) (tz : Int) (st : ServerState) :
    (cronTick dbOk now tz st).deviceConfigs = st.deviceConfigs := by
  unfold cronTick
  split <;> rfl

theorem cronTick_dbConfigs (dbOk : Bool) (now : Nat) (tz : Int) (st : ServerState) :
    (cronTick dbOk now tz st).dbConfigs = st.dbConfigs := by
  unfold cronTick
  split <;> rfl

theorem cronTick_idem (dbOk : Bool) (now : Nat) (tz : Int) (st : ServerState) :
    cronTick dbOk now tz (cronTick dbOk now tz st) = cronTick dbOk now tz st := by
  cases dbOk
  · rw [cronTick_false, cronTick_false]
  · obtain ⟨a, b, c, d⟩ := st
    simp [cronTick_true, runDevicesOk_idem]

theorem mem_mapSet :
    ∀ (m : List (String × Config)) (p : String × Config) (k : String) (v : Config),
      p ∈ mapSet m k v → p ∈ m ∨ p.1 = k := by
  intro m
  induction m with
  | nil =>
    intro p k v h
    rw [mapSet, List.mem_singleton] at h
    subst h
    exact Or.inr rfl
  | cons q rest ih =>
    intro p k v h
    rw [mapSet] at h
    split at h
    · rcases List.mem_cons.mp h with h' | h'
      · subst h'; exact Or.inr rfl
      · exact Or.inl (List.mem_cons_of_mem _ h')
    · rcases List.mem_cons.mp h with h' | h'
      · subst h'; exact Or.inl (List.mem_cons_self _ _)
      · rcases ih p k v h' with h'' | h''
        · exact Or.inl (List.mem_cons_of_mem _ h'')
        · exact Or.inr h''

theorem lookup_mapSet_self :
    ∀ (m : List (String × Config)) (k : String) (v : Config),
      List.lookup k (mapSet m k v) = some v := by
  intro m
  induction m with
  | nil => intro k v; simp [mapSet, List.lookup]
  | cons q rest ih =>
    intro k v
    rw [mapSet]
    split
    · simp [List.lookup]
    next hne =>
      rw [List.lookup]
      have : (k == q.1) = false := by
        simp only [beq_eq_false_iff_ne, ne_eq]
        intro h
        exact hne h.symm
      rw [this]
      exact ih k v

theorem lookup_mapSet_ne :
    ∀ (m : List (String × Config)) (k : String) (v : Config) (k' : String),
      k' ≠ k → List.lookup k' (mapSet m k v) = List.lookup k' m := by
  intro m
  induction m with
  | nil =>
    intro k v k' hne
    simp only [mapSet, List.lookup]
    rw [show (k' == k) = false by simpa using hne]
  | cons q rest ih =>
    intro k v k' hne
    rw [mapSet]
    split
    next heq =>
      subst heq
      simp only [List.lookup]
      rw [show (k' == q.1) = false by simpa using hne]
    · simp only [List.lookup]
      cases h : k' == q.1
      · exact ih k v k' hne
      · rfl

theorem validateFeedingLog_none_iff (parseIso : String → Option Nat)
    (b : FeedingLogBody) :
    validateFeedingLog parseIso b = none ↔ feedingSchemaViolation parseIso b = true := by
  obtain ⟨did, act, ts, det⟩ := b
  cases did <;> cases act <;> cases ts <;>
    simp only [validateFeedingLog, feedingSchemaViolation, Option.isNone] <;>
    try simp
  next a t =>
    by_cases hm : a ∈ actionValues
    · cases hp : parseIso t <;> simp [hm, hp]
    · simp [hm]

theorem postFeedingLog_missed (parseIso : String → Option Nat) (dbOk : Bool)
    (b : FeedingLogBody) (st : ServerState) :
    (postFeedingLog parseIso dbOk b st).1.missedFeedings = st.missedFeedings ∧
    (postFeedingLog parseIso dbOk b st).1.deviceConfigs = st.deviceConfigs ∧
    (postFeedingLog parseIso dbOk b st).1.dbConfigs = st.dbConfigs := by
  unfold postFeedingLog
  split
  · exact ⟨rfl, rfl, rfl⟩
  · split <;> exact ⟨rfl, rfl, rfl⟩

theorem postDeviceConfig_missed (dbOk : Bool) (b : ConfigBody) (st : ServerState) :
    (postDeviceConfig dbOk b st).1.missedFeedings = st.missedFeedings ∧
    (postDeviceConfig dbOk b st).1.feedingLogs = st.feedingLogs := by
  unfold postDeviceConfig
  split
  · exact ⟨rfl, rfl⟩
  · split <;> exact ⟨rfl, rfl⟩

theorem postDeviceConfig_mem_configs (dbOk : Bool) (b : ConfigBody) (st : ServerState)
    (p : String × Config) (h : p ∈ (postDeviceConfig dbOk b st).1.deviceConfigs) :
    p ∈ st.deviceConfigs ∨ isValidConfigPostFor p.1 (.postConfig dbOk b) = true := by
  unfold postDeviceConfig at h
  split at h
  · exact Or.inl h
  next d cfg hv =>
    have hm : p ∈ mapSet st.deviceConfigs d cfg := by
      split at h <;> exact h
    rcases mem_mapSet _ _ _ _ hm with h' | h'
    · exact Or.inl h'
    · right
      rw [isValidConfigPostFor, hv, h']
      exact beq_self_eq_true d

theorem runOps_inv (parseIso : String → Option Nat) (Q : String → Prop) :
    ∀ (ops : List Op) (st : ServerState),
      (∀ r ∈ st.missedFeedings, Q r.device_id) →
      (∀ p : String × Config, p ∈ st.deviceConfigs → Q p.1) →
      (∀ op ∈ ops, ∀ d, isValidConfigPostFor d op = true → Q d) →
      (∀ r ∈ (runOps parseIso st ops).missedFeedings, Q r.device_id) ∧
      (∀ p : String × Config, p ∈ (runOps parseIso st ops).deviceConfigs → Q p.1) := by
  intro ops
  induction ops with
  | nil => intro st h1 h2 _; exact ⟨h1, h2⟩
  | cons op rest ih =>
    intro st h1 h2 h3
    have hrest : ∀ o ∈ rest, ∀ d, isValidConfigPostFor d o = true → Q d :=
      fun o ho => h3 o (List.mem_cons_of_mem _ ho)
    have hop : ∀ d, isValidConfigPostFor d op = true → Q d :=
      h3 op (List.mem_cons_self _ _)
    show (∀ r ∈ (runOps parseIso (step parseIso st op) rest).missedFeedings, Q r.device_id) ∧ _
    apply ih
    · -- missed-feeding invariant after one step
      cases op with
      | postLog dbOk b =>
        show ∀ r ∈ (postFeedingLog parseIso dbOk b st).1.missedFeedings, Q r.device_id
        rw [(postFeedingLog_missed parseIso dbOk b st).1]
        exact h1
      | postConfig dbOk b =>
        show ∀ r ∈ (postDeviceConfig dbOk b st).1.missedFeedings, Q r.device_id
        rw [(postDeviceConfig_missed dbOk b st).1]
        exact h1
      | getLogs d => exact h1
      | getMissed d date => exact h1
      | getStats d days => exact h1
      | health => exact h1
      | tick dbOk now tz =>
        cases dbOk
        · rw [show step parseIso st (.tick false now tz) = cronTick false now tz st from rfl,
            cronTick_false]
          exact h1
        · intro r hr
          rw [show step parseIso st (.tick true now tz) = cronTick true now tz st from rfl,
            cronTick_true] at hr
          rcases runDevicesOk_mem _ _ _ hr with h' | ⟨⟨c, hc⟩, _, _⟩
          · exact h1 r h'
          · exact h2 _ hc
    · -- deviceConfigs invariant after one step
      cases op with
      | postLog dbOk b =>
        show ∀ p : String × Config, p ∈ (postFeedingLog parseIso dbOk b st).1.deviceConfigs → Q p.1
        rw [(postFeedingLog_missed parseIso dbOk b st).2.1]
        exact h2
      | postConfig dbOk b =>
        intro p hp
        rcases postDeviceConfig_mem_configs dbOk b st p hp with h' | h'
        · exact h2 p h'
        · exact hop p.1 h'
      | getLogs d => exact h2
      | getMissed d date => exact h2
      | getStats d days => exact h2
      | health => exact h2
      | tick dbOk now tz =>
        rw [show step parseIso st (.tick dbOk now tz) = cronTick dbOk now tz st from rfl,
          cronTick_deviceConfigs]
        exact h2
    · exact hrest

theorem validateFeedingLog_some_fields (parseIso : String → Option Nat)
    (b : FeedingLogBody) (row : FeedingLog)
    (h : validateFeedingLog parseIso b = some row) :
    b.device_id = some row.device_id ∧ b.action = some row.action ∧
    (∃ ts, b.timestamp = some ts ∧ parseIso ts = some row.timestamp) ∧
    row.action ∈ actionValues := by
  obtain ⟨did, act, ts, det⟩ := b
  cases did <;> cases act <;> cases ts <;>
    simp only [validateFeedingLog] at h <;> try cases h
  next d a t =>
    by_cases hm : actionValues.contains a = true
    · rw [if_pos hm] at h
      cases hp : parseIso t with
      | none => rw [hp] at h; cases h
      | some v =>
        rw [hp] at h
        cases h
        refine ⟨rfl, rfl, ⟨t, rfl, hp⟩, ?_⟩
        simpa using hm
    · rw [if_neg hm] at h
      cases h

theorem validateConfig_none_iff (b : ConfigBody) :
    validateConfig b = none ↔ configSchemaViolation b = true := by
  obtain ⟨did, fts, dur⟩ := b
  cases did <;> cases fts <;> cases dur <;>
    simp only [validateConfig, configSchemaViolation, Option.isNone_none,
      Option.isNone_some] <;>
    try (simp; done)
  next ts d =>
    by_cases hA : ts.all hhmmOk = true
    · by_cases h1 : (1 : Rat) ≤ d
      · by_cases h2 : d ≤ (120 : Rat)
        · simp [hA, h1, h2]
        · simp [hA, h1, h2]
      · simp [hA, h1]
    · simp [hA]

theorem validateConfig_some_fields (b : ConfigBody) (d : String) (cfg : Config)
    (h : validateConfig b = some (d, cfg)) :
    b.device_id = some d ∧ b.feeding_times = some cfg.feeding_times ∧
    b.duration_minutes = some cfg.duration_minutes ∧
    cfg.feeding_times.all hhmmOk = true ∧
    1 ≤ cfg.duration_minutes ∧ cfg.duration_minutes ≤ 120 := by
  obtain ⟨did, fts, dur⟩ := b
  cases did <;> cases fts <;> cases dur <;>
    simp only [validateConfig] at h <;> try cases h
  next ts dm =>
    by_cases hc : (ts.all hhmmOk && (decide ((1 : Rat) ≤ dm) && decide (dm ≤ (120 : Rat)))) = true
    · rw [if_pos hc] at h
      cases h
      simp only [Bool.and_eq_true, decide_eq_true_eq] at hc
      exact ⟨rfl, rfl, rfl, hc.1, hc.2.1, hc.2.2⟩
    · rw [if_neg hc] at h
      cases h

/-- C1, counterexample: the claimed tolerance window is wrong for the code.
Device dev1 has schedule 12:00 and a single open event at 11:57:00 (43020 s).
At the 12:00:00 tick (43200 s, offset 0) there is no open event inside the
spec window from 12:00 to 12:05 (grace 300 s), so the iff of the claim requires an
incident — but the detector, whose query looks at timestamp >= now - 5 min,
is satisfied by the 11:57 event and records nothing. -/
theorem detector_window_claim_false :
    (cronTick true 43200 0
      ⟨[("dev1", ⟨["12:00"], 30⟩)], [], [⟨"dev1", "open", 43020, ""⟩], []⟩).missedFeedings
      = [] ∧
    openWithinSpecWindow [⟨"dev1", "open", 43020, ""⟩] "dev1" 43200 300 = false ∧
    currentTimeString 43200 0 = "12:00" := by
  refine ⟨by decide, by decide, by decide⟩

/-- C1, amended: at the detector tick whose host-local HH:MM equals a
time_of_day of a registered entry, an incident (keyed by the tick instant) is
inserted if and only if no open event for that device has timestamp at least
now - 5 minutes; the window looks backwards from the tick, not forwards from
the scheduled instant.  With no open events at all (Scenario B) exactly one
incident is inserted, already at the matching tick. -/
theorem detector_backward_window (d : String) (c : Config)
    (dbc : List (String × Config)) (logs : List FeedingLog)
    (missed : List MissedRow) (now : Nat) (tz : Int)
    (h : c.feeding_times.contains (currentTimeString now tz) = true) :
    (cronTick true now tz ⟨[(d, c)], dbc, logs, missed⟩).missedFeedings =
      if openCount logs d now = 0 then insertMissed missed d now now else missed := by
  rw [cronTick_true]
  show runDevicesOk now tz logs [(d, c)] missed = _
  rw [runDevicesOk, runDevicesOk, if_pos h]

/-- C1, witness: Scenario B — schedule 12:00, no open events; at the 12:00:00
tick one incident is inserted. -/
theorem detector_backward_window_witness :
    (⟨["12:00"], 30⟩ : Config).feeding_times.contains (currentTimeString 43200 0) = true ∧
    (cronTick true 43200 0 ⟨[("dev1", ⟨["12:00"], 30⟩)], [], [], []⟩).missedFeedings =
      (if openCount [] "dev1" 43200 = 0 then insertMissed [] "dev1" 43200 43200 else []) :=
  ⟨by decide,
   detector_backward_window "dev1" ⟨["12:00"], 30⟩ [] [] [] 43200 0 (by decide)⟩

/-- C2: the detector is idempotent — running the tick a second time with the
same clock changes nothing; the uniqueness invariant on (device_id,
scheduled_time) is preserved by every tick; and the ON CONFLICT DO NOTHING
insert leaves the table unchanged when the key is already present. -/
theorem detector_idempotent (dbOk : Bool) (now : Nat) (tz : Int) (st : ServerState) :
    cronTick dbOk now tz (cronTick dbOk now tz st) = cronTick dbOk now tz st ∧
    (uniqKeys st.missedFeedings → uniqKeys (cronTick dbOk now tz st).missedFeedings) ∧
    (∀ d t det, hasMissedKey st.missedFeedings d t = true →
      insertMissed st.missedFeedings d t det = st.missedFeedings) := by
  refine ⟨cronTick_idem dbOk now tz st, ?_, fun d t det h => insertMissed_of_key det h⟩
  intro hu
  cases dbOk
  · rw [cronTick_false]
    exact hu
  · rw [cronTick_true]
    exact uniqKeys_runDevicesOk _ _ hu

/-- C2, witness at a concrete state with one existing incident row. -/
theorem detector_idempotent_witness :
    uniqKeys (cronTick true 43200 0
      ⟨[("dev1", ⟨["12:00"], 30⟩)], [], [], [⟨"dev1", 100, 100, false⟩]⟩).missedFeedings ∧
    insertMissed [⟨"dev1", 100, 100, false⟩] "dev1" 100 7 = [⟨"dev1", 100, 100, false⟩] :=
  ⟨(detector_idempotent true 43200 0
      ⟨[("dev1", ⟨["12:00"], 30⟩)], [], [], [⟨"dev1", 100, 100, false⟩]⟩).2.1 (by decide),
   (detector_idempotent true 43200 0
      ⟨[("dev1", ⟨["12:00"], 30⟩)], [], [], [⟨"dev1", 100, 100, false⟩]⟩).2.2
      "dev1" 100 7 (by decide)⟩

/-- C3, counterexample: a tick at 12:00:30 (43230 s, offset 0) matches the
12:00 entry but inserts scheduled_time 43230 — the tick instant with its
seconds — not the exact minute instant 12:00:00 (43200 s) the feeding was
due. -/
theorem scheduled_time_not_minute_aligned :
    (cronTick true 43230 0
      ⟨[("dev1", ⟨["12:00"], 30⟩)], [], [], []⟩).missedFeedings =
      [⟨"dev1", 43230, 43230, false⟩] ∧
    currentTimeString 43230 0 = "12:00" ∧ (43230 : Nat) % 60 = 30 := by
  refine ⟨by decide, by decide, by decide⟩

/-- C3, amended: every incident row the tick adds carries scheduled_time and
detected_at equal to the tick timestamp `now` (whose host-local hour:minute
matched the entry, but whose seconds within the minute are preserved). -/
theorem scheduled_time_is_tick_instant (dbOk : Bool) (now : Nat) (tz : Int)
    (st : ServerState) (r : MissedRow)
    (h : r ∈ (cronTick dbOk now tz st).missedFeedings) :
    r ∈ st.missedFeedings ∨ (r.scheduled_time = now ∧ r.detected_at = now) := by
  cases dbOk
  · rw [cronTick_false] at h
    exact Or.inl h
  · rw [cronTick_true] at h
    rcases runDevicesOk_mem _ _ _ h with h' | ⟨_, hs, hd⟩
    · exact Or.inl h'
    · exact Or.inr ⟨hs, hd⟩

/-- C3, witness: the row inserted by the 43230 s tick indeed carries the tick
instant. -/
theorem scheduled_time_is_tick_instant_witness :
    ((⟨"dev1", 43230, 43230, false⟩ : MissedRow) ∈
      (cronTick true 43230 0
        ⟨[("dev1", ⟨["12:00"], 30⟩)], [], [], []⟩).missedFeedings) ∧
    ((⟨"dev1", 43230, 43230, false⟩ : MissedRow) ∈ ([] : List MissedRow) ∨
      ((43230 : Nat) = 43230 ∧ (43230 : Nat) = 43230)) :=
  ⟨by decide,
   scheduled_time_is_tick_instant true 43230 0
     ⟨[("dev1", ⟨["12:00"], 30⟩)], [], [], []⟩ ⟨"dev1", 43230, 43230, false⟩ (by decide)⟩

/-- C4, counterexample: two detector runs at the same UTC instant 43200 s
(12:00 UTC) with host offsets 0 and +60 minutes produce different incident
tables for a device scheduled at 12:00 — matching is host-timezone
dependent. -/
theorem detector_depends_on_host_timezone :
    (cronTick true 43200 0
      ⟨[("dev1", ⟨["12:00"], 30⟩)], [], [], []⟩).missedFeedings ≠
    (cronTick true 43200 60
      ⟨[("dev1", ⟨["12:00"], 30⟩)], [], [], []⟩).missedFeedings := by
  decide

/-- C4, amended: schedule matching is computed in the host's local timezone:
the matched HH:MM string is a function of (UTC seconds + 60 * host offset)
mod 86400 alone, so two runs agree exactly when their host-local clocks show
the same time of day — not when their UTC instants coincide. -/
theorem matching_uses_host_local_time (c : Config) (now now' : Nat) (tz tz' : Int)
    (h : ((now : Int) + tz * 60).emod 86400 = ((now' : Int) + tz' * 60).emod 86400) :
    currentTimeString now tz = currentTimeString now' tz' ∧
    c.feeding_times.contains (currentTimeString now tz) =
      c.feeding_times.contains (currentTimeString now' tz') := by
  have he : currentTimeString now tz = currentTimeString now' tz' := by
    unfold currentTimeString
    rw [h]
  exact ⟨he, by rw [he]⟩

/-- C4, witness: a run at 12:00 UTC under offset +60 matches the same entries
as a run at 13:00 UTC under offset 0. -/
theorem matching_uses_host_local_time_witness :
    ((43200 : Int) + 60 * 60).emod 86400 = ((46800 : Int) + 0 * 60).emod 86400 ∧
    (currentTimeString 43200 60 = currentTimeString 46800 0 ∧
      (⟨["13:00"], 30⟩ : Config).feeding_times.contains (currentTimeString 43200 60) =
        (⟨["13:00"], 30⟩ : Config).feeding_times.contains (currentTimeString 46800 0)) :=
  ⟨by decide,
   matching_uses_host_local_time ⟨["13:00"], 30⟩ 43200 46800 60 0 (by decide)⟩

/-- C5: when the event store is unreachable during a tick, the catch of the cron
callback absorbs the thrown error: the state — incident table
included — is left exactly as it was, and the next tick behaves as if the
failed cycle had never happened. -/
theorem detector_store_failure_isolated (now now' : Nat) (tz tz' : Int)
    (st : ServerState) :
    cronTick false now tz st = st ∧
    cronTick true now' tz' (cronTick false now tz st) = cronTick true now' tz' st := by
  refine ⟨cronTick_false now tz st, ?_⟩
  rw [cronTick_false]

/-- C6: POST /api/feeding/log answers 400 exactly when the body violates the
event schema (missing device_id, action outside the five values, missing or
unparseable ISO-8601 timestamp); on a schema-valid body with the store
reachable it appends exactly one feeding_logs row, built from the body, and
answers 200. -/
theorem feeding_log_endpoint_behavior (parseIso : String → Option Nat)
    (dbOk : Bool) (b : FeedingLogBody) (st : ServerState) :
    ((postFeedingLog parseIso dbOk b st).2 = 400 ↔
      feedingSchemaViolation parseIso b = true) ∧
    (feedingSchemaViolation parseIso b = false → dbOk = true →
      ∃ row, validateFeedingLog parseIso b = some row ∧
        b.device_id = some row.device_id ∧ b.action = some row.action ∧
        (∃ ts, b.timestamp = some ts ∧ parseIso ts = some row.timestamp) ∧
        row.action ∈ actionValues ∧
        (postFeedingLog parseIso dbOk b st).1.feedingLogs = st.feedingLogs ++ [row] ∧
        (postFeedingLog parseIso dbOk b st).2 = 200) := by
  have hiff := validateFeedingLog_none_iff parseIso b
  constructor
  · cases hval : validateFeedingLog parseIso b with
    | none =>
      constructor
      · intro _
        exact hiff.mp hval
      · intro _
        simp [postFeedingLog, hval]
    | some row =>
      constructor
      · intro h400
        exfalso
        have hstat : (postFeedingLog parseIso dbOk b st).2 = if dbOk then 200 else 500 := by
          cases dbOk <;> simp [postFeedingLog, hval]
        rw [hstat] at h400
        cases dbOk <;> simp at h400
      · intro hviol
        have hcontr := (hiff.mpr hviol).symm.trans hval
        exact Option.noConfusion hcontr
  · intro hnv hdb
    subst hdb
    cases hval : validateFeedingLog parseIso b with
    | none =>
      rw [hiff.mp hval] at hnv
      cases hnv
    | some row =>
      obtain ⟨h1, h2, h3, h4⟩ := validateFeedingLog_some_fields parseIso b row hval
      refine ⟨row, rfl, h1, h2, h3, h4, ?_, ?_⟩
      · simp [postFeedingLog, hval]
      · simp [postFeedingLog, hval]

/-- C6, witness at a concrete valid body. -/
theorem feeding_log_endpoint_behavior_witness :
    feedingSchemaViolation (fun _ => some 77) ⟨some "dev1", some "open", some "t", none⟩ = false ∧
    (∃ row, validateFeedingLog (fun _ => some 77)
        ⟨some "dev1", some "open", some "t", none⟩ = some row ∧
      (⟨some "dev1", some "open", some "t", none⟩ : FeedingLogBody).device_id = some row.device_id ∧
      (⟨some "dev1", some "open", some "t", none⟩ : FeedingLogBody).action = some row.action ∧
      (∃ ts, (⟨some "dev1", some "open", some "t", none⟩ : FeedingLogBody).timestamp = some ts ∧
        (fun _ => some 77) ts = some row.timestamp) ∧
      row.action ∈ actionValues ∧
      (postFeedingLog (fun _ => some 77) true
        ⟨some "dev1", some "open", some "t", none⟩ ⟨[], [], [], []⟩).1.feedingLogs =
        ([] : List FeedingLog) ++ [row] ∧
      (postFeedingLog (fun _ => some 77) true
        ⟨some "dev1", some "open", some "t", none⟩ ⟨[], [], [], []⟩).2 = 200) :=
  ⟨by decide,
   (feeding_log_endpoint_behavior (fun _ => some 77) true
     ⟨some "dev1", some "open", some "t", none⟩ ⟨[], [], [], []⟩).2 (by decide) rfl⟩

/-- C7: POST /api/device/config answers 400 exactly when the body violates
configUpdateSchema, leaving the state untouched in that case; on a valid
body it upserts the parsed config into the in-memory deviceConfigs Map (the
named device maps to the new config, every other key is unchanged) and —
when the store is reachable — upserts the device_configs table and answers
200. -/
theorem device_config_endpoint_behavior (dbOk : Bool) (b : ConfigBody)
    (st : ServerState) :
    ((postDeviceConfig dbOk b st).2 = 400 ↔ configSchemaViolation b = true) ∧
    (configSchemaViolation b = true → (postDeviceConfig dbOk b st).1 = st) ∧
    (∀ d cfg, validateConfig b = some (d, cfg) →
      b.device_id = some d ∧ b.feeding_times = some cfg.feeding_times ∧
      b.duration_minutes = some cfg.duration_minutes ∧
      cfg.feeding_times.all hhmmOk = true ∧
      1 ≤ cfg.duration_minutes ∧ cfg.duration_minutes ≤ 120 ∧
      (postDeviceConfig dbOk b st).1.deviceConfigs = mapSet st.deviceConfigs d cfg ∧
      List.lookup d (postDeviceConfig dbOk b st).1.deviceConfigs = some cfg ∧
      (∀ k, k ≠ d →
        List.lookup k (postDeviceConfig dbOk b st).1.deviceConfigs =
          List.lookup k st.deviceConfigs) ∧
      (dbOk = true →
        (postDeviceConfig dbOk b st).1.dbConfigs = mapSet st.dbConfigs d cfg ∧
        (postDeviceConfig dbOk b st).2 = 200)) := by
  have hiff := validateConfig_none_iff b
  refine ⟨?_, ?_, ?_⟩
  · cases hval : validateConfig b with
    | none =>
      constructor
      · intro _
        exact hiff.mp hval
      · intro _
        simp [postDeviceConfig, hval]
    | some p =>
      obtain ⟨d0, cfg0⟩ := p
      constructor
      · intro h400
        exfalso
        have hstat : (postDeviceConfig dbOk b st).2 = if dbOk then 200 else 500 := by
          cases dbOk <;> simp [postDeviceConfig, hval]
        rw [hstat] at h400
        cases dbOk <;> simp at h400
      · intro hviol
        have hcontr := (hiff.mpr hviol).symm.trans hval
        exact Option.noConfusion hcontr
  · intro hviol
    have hnone := hiff.mpr hviol
    simp [postDeviceConfig, hnone]
  · intro d cfg hval
    obtain ⟨h1, h2, h3, h4, h5, h6⟩ := validateConfig_some_fields b d cfg hval
    have hdc : (postDeviceConfig dbOk b st).1.deviceConfigs =
        mapSet st.deviceConfigs d cfg := by
      cases dbOk <;> simp [postDeviceConfig, hval]
    refine ⟨h1, h2, h3, h4, h5, h6, hdc, ?_, ?_, ?_⟩
    · rw [hdc]
      exact lookup_mapSet_self st.deviceConfigs d cfg
    · intro k hk
      rw [hdc]
      exact lookup_mapSet_ne st.deviceConfigs d cfg k hk
    · intro hdb
      subst hdb
      constructor <;> simp [postDeviceConfig, hval]

/-- C7, witness at a concrete valid body over a one-entry map. -/
theorem device_config_endpoint_behavior_witness :
    ((⟨some "dev1", some ["08:30"], some 45⟩ : ConfigBody).device_id = some "dev1" ∧
      (⟨some "dev1", some ["08:30"], some 45⟩ : ConfigBody).feeding_times =
        some (⟨["08:30"], 45⟩ : Config).feeding_times ∧
      (⟨some "dev1", some ["08:30"], some 45⟩ : ConfigBody).duration_minutes =
        some (⟨["08:30"], 45⟩ : Config).duration_minutes ∧
      (⟨["08:30"], 45⟩ : Config).feeding_times.all hhmmOk = true ∧
      1 ≤ (⟨["08:30"], 45⟩ : Config).duration_minutes ∧
      (⟨["08:30"], 45⟩ : Config).duration_minutes ≤ 120 ∧
      (postDeviceConfig true ⟨some "dev1", some ["08:30"], some 45⟩
        ⟨[("dev1", ⟨["12:00"], 30⟩)], [], [], []⟩).1.deviceConfigs =
        mapSet [("dev1", ⟨["12:00"], 30⟩)] "dev1" ⟨["08:30"], 45⟩ ∧
      List.lookup "dev1" (postDeviceConfig true ⟨some "dev1", some ["08:30"], some 45⟩
        ⟨[("dev1", ⟨["12:00"], 30⟩)], [], [], []⟩).1.deviceConfigs =
        some ⟨["08:30"], 45⟩ ∧
      (∀ k, k ≠ "dev1" →
        List.lookup k (postDeviceConfig true ⟨some "dev1", some ["08:30"], some 45⟩
          ⟨[("dev1", ⟨["12:00"], 30⟩)], [], [], []⟩).1.deviceConfigs =
          List.lookup k [("dev1", ⟨["12:00"], 30⟩)]) ∧
      (true = true →
        (postDeviceConfig true ⟨some "dev1", some ["08:30"], some 45⟩
          ⟨[("dev1", ⟨["12:00"], 30⟩)], [], [], []⟩).1.dbConfigs =
          mapSet [] "dev1" ⟨["08:30"], 45⟩ ∧
        (postDeviceConfig true ⟨some "dev1", some ["08:30"], some 45⟩
          ⟨[("dev1", ⟨["12:00"], 30⟩)], [], [], []⟩).2 = 200)) :=
  (device_config_endpoint_behavior true ⟨some "dev1", some ["08:30"], some 45⟩
    ⟨[("dev1", ⟨["12:00"], 30⟩)], [], [], []⟩).2.2 "dev1" ⟨["08:30"], 45⟩ (by decide)

/-- C8: feeding_logs is append-only — every operation the collector exposes
(each API route and the detector tick) leaves the existing rows in place and
unchanged, at most appending new ones. -/
theorem feeding_logs_append_only (parseIso : String → Option Nat)
    (st : ServerState) (op : Op) :
    ∃ tail, (step parseIso st op).feedingLogs = st.feedingLogs ++ tail := by
  cases op with
  | postLog dbOk b =>
    cases hval : validateFeedingLog parseIso b with
    | none =>
      refine ⟨[], ?_⟩
      show (postFeedingLog parseIso dbOk b st).1.feedingLogs = _
      simp [postFeedingLog, hval]
    | some row =>
      cases dbOk
      · refine ⟨[], ?_⟩
        show (postFeedingLog parseIso false b st).1.feedingLogs = _
        simp [postFeedingLog, hval]
      · refine ⟨[row], ?_⟩
        show (postFeedingLog parseIso true b st).1.feedingLogs = _
        simp [postFeedingLog, hval]
  | postConfig dbOk b =>
    refine ⟨[], ?_⟩
    show (postDeviceConfig dbOk b st).1.feedingLogs = _
    rw [(postDeviceConfig_missed dbOk b st).2]
    simp
  | getLogs d =>
    refine ⟨[], ?_⟩
    show st.feedingLogs = _
    simp
  | getMissed d date =>
    refine ⟨[], ?_⟩
    show st.feedingLogs = _
    simp
  | getStats d days =>
    refine ⟨[], ?_⟩
    show st.feedingLogs = _
    simp
  | health =>
    refine ⟨[], ?_⟩
    show st.feedingLogs = _
    simp
  | tick dbOk now tz =>
    refine ⟨[], ?_⟩
    show (cronTick dbOk now tz st).feedingLogs = _
    rw [cronTick_feedingLogs]
    simp

/-- C9, counterexample: a schema-valid config POST made while the store is
down answers 500 — not success — yet it populates the in-memory Map (the
Map.set precedes the failed INSERT), so the next matching tick records an
incident although no successful (200) POST /api/device/config was ever
handled. -/
theorem incident_without_successful_config_post :
    (postDeviceConfig false ⟨some "dev1", some ["12:00"], some 30⟩ (initState [])).2 = 500 ∧
    (runOps (fun _ => none) (initState [])
      [.postConfig false ⟨some "dev1", some ["12:00"], some 30⟩,
       .tick true 43200 0]).missedFeedings = [⟨"dev1", 43200, 43200, false⟩] := by
  refine ⟨by decide, by decide⟩

/-- C9, amended: starting from a fresh process (empty deviceConfigs Map,
arbitrary persisted device_configs rows), an incident can exist for a device
only if the trace contains a POST /api/device/config whose body passed
configUpdateSchema for that device — the detector reads only the in-memory
Map, never the device_configs table, so a device whose config exists only in
the database is never checked.  (Such a POST need not have answered 200: if
the database write failed it answered 500 but had already updated the Map.) -/
theorem incidents_require_config_post (parseIso : String → Option Nat)
    (dbCfgs : List (String × Config)) (ops : List Op) (r : MissedRow)
    (h : r ∈ (runOps parseIso (initState dbCfgs) ops).missedFeedings) :
    ∃ op ∈ ops, isValidConfigPostFor r.device_id op = true :=
  (runOps_inv parseIso (fun d => ∃ op ∈ ops, isValidConfigPostFor d op = true)
    ops (initState dbCfgs)
    (fun r hr => absurd hr (List.not_mem_nil r))
    (fun p hp => absurd hp (List.not_mem_nil p))
    (fun op hop d hd => ⟨op, hop, hd⟩)).1 r h

/-- C9, witness: with a device present only in the database table and another
registered through the API, the only incident belongs to the registered one. -/
theorem incidents_require_config_post_witness :
    ((⟨"dev1", 43200, 43200, false⟩ : MissedRow) ∈
      (runOps (fun _ => none) (initState [("db-only", ⟨["12:00"], 30⟩)])
        [.postConfig true ⟨some "dev1", some ["12:00"], some 30⟩,
         .tick true 43200 0]).missedFeedings) ∧
    (∃ op ∈ ([.postConfig true ⟨some "dev1", some ["12:00"], some 30⟩,
        .tick true 43200 0] : List Op),
      isValidConfigPostFor (⟨"dev1", 43200, 43200, false⟩ : MissedRow).device_id op = true) :=
  ⟨by decide,
   incidents_require_config_post (fun _ => none) [("db-only", ⟨["12:00"], 30⟩)]
     [.postConfig true ⟨some "dev1", some ["12:00"], some 30⟩, .tick true 43200 0]
     ⟨"dev1", 43200, 43200, false⟩ (by decide)⟩

/-- C10: GET /api/stats splices the days query value verbatim into the SQL
text of both statistics queries — each executed text literally contains the
raw value between INTERVAL quotes, and distinct values yield distinct query
texts, so the query text is a function of this unvalidated input rather than
a fixed parameterized string. -/
theorem stats_query_interpolates_days (days : String) :
    statsQueryText days = statsPre ++ intervalLit days ++ statsPost ∧
    missedQueryText days = missedPre ++ intervalLit days ++ missedPost ∧
    (∃ l r, (statsQueryText days).data = l ++ days.data ++ r) ∧
    (∃ l r, (missedQueryText days).data = l ++ days.data ++ r) ∧
    (∀ d', statsQueryText days = statsQueryText d' → days = d') ∧
    (∀ d', missedQueryText days = missedQueryText d' → days = d') := by
  refine ⟨rfl, rfl, ?_, ?_, ?_, ?_⟩
  · exact ⟨(statsPre ++ ("INTERVAL " ++ sq)).data, ((" days" ++ sq) ++ statsPost).data,
      by simp [statsQueryText, intervalLit, String.data_append, List.append_assoc]⟩
  · exact ⟨(missedPre ++ ("INTERVAL " ++ sq)).data, ((" days" ++ sq) ++ missedPost).data,
      by simp [missedQueryText, intervalLit, String.data_append, List.append_assoc]⟩
  · intro d' h
    have hd : (statsQueryText days).data = (statsQueryText d').data := by rw [h]
    simp only [statsQueryText, intervalLit, String.data_append, List.append_assoc] at hd
    have h1 := List.append_cancel_left hd
    have h2 := List.append_cancel_left h1
    have h3 := List.append_cancel_left h2
    have h4 := List.append_cancel_right h3
    cases days
    cases d'
    exact congrArg String.mk h4
  · intro d' h
    have hd : (missedQueryText days).data = (missedQueryText d').data := by rw [h]
    simp only [missedQueryText, intervalLit, String.data_append, List.append_assoc] at hd
    have h1 := List.append_cancel_left hd
    have h2 := List.append_cancel_left h1
    have h3 := List.append_cancel_left h2
    have h4 := List.append_cancel_right h3
    cases days
    cases d'
    exact congrArg String.mk h4

/-- C10, witness: a hostile days value lands verbatim in the query text. -/
theorem stats_query_interpolates_days_witness :
    (∃ l r, (statsQueryText "7 OR 1=1").data = l ++ ("7 OR 1=1" : String).data ++ r) ∧
    ("7 OR 1=1" : String) = "7 OR 1=1" :=
  ⟨(stats_query_interpolates_days "7 OR 1=1").2.2.1,
   (stats_query_interpolates_days "7 OR 1=1").2.2.2.2.1 "7 OR 1=1" rfl⟩

end ChickenFeed
